import Mathlib

/-!
Verification of the EdgeOS_API document-layout core against its specification.

The definitions below are a shallow embedding of `src/app/core/invoice.py`
and `src/app/core/edge_wrapped.py`.  Python floats are modelled as `ℚ`,
Python ints as `ℤ`/`ℕ`, Python strings as Lean `String` (and, for the
caption word-wrap component, as `List Char` so that splitting and joining
can be reasoned about directly).
-/

-- Rational arithmetic must evaluate inside `decide`; these core operations
-- are `@[irreducible]` by default.
attribute [local semireducible] Rat.ofScientific Rat.mul Rat.inv Rat.add Rat.sub

namespace EdgeOS

/-! ## Number formatting (invoice.py, lines 27-50) -/

/-- Round-half-even of a rational to an integer, the rounding used by
Python `format` on floats (round half to even). -/
def roundHalfEven (q : ℚ) : ℤ :=
  let f := q.floor
  let r := q - f
  if r < 1/2 then f
  else if 1/2 < r then f + 1
  else if f % 2 = 0 then f else f + 1

/-- Insert a separator every three characters, used on the reversed digit
string of the integer part (models the `,` grouping of Python `{:,.Nf}`,
already swapped to `.` as `_format_money` does). -/
def group3 : List Char → List Char
  | a :: b :: c :: d :: rest => a :: b :: c :: '.' :: group3 (d :: rest)
  | l => l

/-- Left-pad a digit string with zeros up to width `d`. -/
def padZeros (s : String) (d : ℕ) : String :=
  String.mk (List.replicate (d - s.length) '0' ++ s.toList)

/-- Model of `_format_money(value, decimals)` (invoice.py line 37): render with
`decimals` fractional digits, thousands separated, then swap `,` and `.`
(so the output uses `.` for grouping and `,` as the decimal separator).
Inputs are non-negative per the contract. -/
def formatMoneyD (value : ℚ) (decimals : ℕ) : String :=
  let n : ℤ := roundHalfEven (value * (10 : ℚ) ^ decimals)
  let m : ℕ := n.toNat
  let ip := m / 10 ^ decimals
  let fp := m % 10 ^ decimals
  let ipStr := String.mk (group3 (Nat.repr ip).toList.reverse).reverse
  if decimals = 0 then ipStr
  else ipStr ++ "," ++ padZeros (Nat.repr fp) decimals

/-- Model of `format_money(value)` (invoice.py line 32): two decimals. -/
def format_money (value : ℚ) : String :=
  formatMoneyD value 2

/-- Python `str.upper`, modelled characterwise. -/
def pyUpper (s : String) : String :=
  String.mk (s.toList.map Char.toUpper)

/-- Model of `is_crypto_currency` (invoice.py line 44). -/
def is_crypto_currency (code : String) : Bool :=
  pyUpper code == "BTC" || pyUpper code == "ETH"

/-- Model of `format_currency` (invoice.py line 48): 8 decimals for crypto codes,
2 otherwise. -/
def format_currency (value : ℚ) (currency : String) : String :=
  let decimals := if is_crypto_currency currency then 8 else 2
  formatMoneyD value decimals

/-- Python `f-string` formatting `{x:.0f}` used for the discount cell. -/
def formatPercent0 (x : ℚ) : String :=
  toString (roundHalfEven x)

/-! ## Payment data model (consumed view, see app.api.payments.models) -/

/-- A line-item snapshot (`item` in the row loop of `generate_invoice_pdf`). -/
structure ProductSnapshot where
  product_name : String
  product_price : ℚ
  quantity : ℕ
  deriving DecidableEq

/-- The fields of `models.Payment` read by `generate_invoice_pdf`. -/
structure Payment where
  id : ℕ
  currency : String
  rate : ℚ
  amount : ℚ
  products_snapshot : List ProductSnapshot
  popup_city_name : String
  deriving DecidableEq

/-! ## Invoice table builder (invoice.py, lines 176-222) -/

/-- The header row (invoice.py lines 178-185): base columns, then
`Discount` iff a discount was supplied, then `Rate` iff `rate > 1`,
then `Amount`. -/
def invoiceHeaders (discount : Option ℚ) (rate : ℚ) : List String :=
  ["Quantity", "Description", "Unit Price"]
    ++ (if discount.isSome then ["Discount"] else [])
    ++ (if 1 < rate then ["Rate"] else [])
    ++ ["Amount"]

/-- One body row of the invoice table (invoice.py lines 191-222). -/
def buildRow (discount : Option ℚ) (rate : ℚ) (currency : String)
    (popup_name : String) (item : ProductSnapshot) : List String :=
  let unit_price_usd := item.product_price
  let qty := item.quantity
  if 1 < rate then
    let unit_in_currency := unit_price_usd / rate
    let total_unit := unit_in_currency * (qty : ℚ)
    let total_after_discount := total_unit * (1 - (discount.getD 0) / 100)
    let description := item.product_name ++ " - " ++ popup_name
    [toString qty, description, format_money unit_price_usd ++ " USD"]
      ++ (if discount.isSome then [formatPercent0 (discount.getD 0) ++ "%"] else [])
      ++ ["1 " ++ currency ++ " = " ++ format_money rate ++ " USD"]
      ++ [format_currency total_after_discount currency ++ " " ++ currency]
  else
    let total_unit := unit_price_usd * (qty : ℚ)
    let total_after_discount := total_unit * (1 - (discount.getD 0) / 100)
    [toString qty, item.product_name, format_money unit_price_usd ++ " USD"]
      ++ (if discount.isSome then [formatPercent0 (discount.getD 0) ++ "%"] else [])
      ++ [format_currency total_after_discount currency ++ " " ++ currency]

/-- Model of `table_data` (invoice.py lines 187-222): the header row followed by one
built row per line item. -/
def table_data (payment : Payment) (discount : Option ℚ) : List (List String) :=
  invoiceHeaders discount payment.rate
    :: payment.products_snapshot.map
        (buildRow discount payment.rate payment.currency payment.popup_city_name)

/-! ## Column-width allocation (invoice.py, lines 238-304) -/

/-- The reportlab `mm` unit: 72 points per inch over 25.4 mm per inch. -/
def mmUnit : ℚ := 72 / 25.4

/-- Padding added to each measured column width (invoice.py line 271:
left+right padding 8 plus a tiny buffer 2). -/
def pad : ℚ := 8 + 2

def qty_min : ℚ := 12 * mmUnit
def unit_min : ℚ := 24 * mmUnit
def amount_min : ℚ := 28 * mmUnit
def discount_min : ℚ := 16 * mmUnit
def rate_min : ℚ := 36 * mmUnit
def desc_min : ℚ := 30 * mmUnit

/-- Initial (pre-fallback) width of the quantity column (line 272). -/
def qtyW0 (max_qty : ℚ) : ℚ := max qty_min (max_qty + pad)

/-- Initial width of the unit-price column (line 273). -/
def unitW0 (max_unit : ℚ) : ℚ := max unit_min (max_unit + pad)

/-- Initial width of the amount column (line 274). -/
def amountW0 (max_amount : ℚ) : ℚ := max amount_min (max_amount + pad)

/-- Initial width of the discount column, `0` when absent (lines 275-277). -/
def discountW0 (showD : Bool) (max_discount : ℚ) : ℚ :=
  if showD then max discount_min (max_discount + pad) else 0

/-- Initial width of the rate column, `0` when absent (line 278). -/
def rateW0 (showR : Bool) (max_rate : ℚ) : ℚ :=
  if showR then max rate_min (max_rate + pad) else 0

/-- The value `other_sum` before the overflow fallback (line 280). -/
def otherSum0 (showD showR : Bool) (mq mu ma md mr : ℚ) : ℚ :=
  qtyW0 mq + unitW0 mu + amountW0 ma + discountW0 showD md + rateW0 showR mr

/-- The six final column widths in the order
(qty, desc, unit, discount, rate, amount). -/
structure ColWidths where
  qty_w : ℚ
  desc_w : ℚ
  unit_w : ℚ
  discount_w : ℚ
  rate_w : ℚ
  amount_w : ℚ
  deriving DecidableEq

/-- Final column widths after the overflow fallback (invoice.py lines
280-297): if the residual description width falls below its minimum, the
other columns are scaled by `target_other / other_sum` and the description
width is recomputed as the residual floored at `desc_min`. -/
def allocFinal (W : ℚ) (showD showR : Bool) (mq mu ma md mr : ℚ) : ColWidths :=
  let qty_w := qtyW0 mq
  let unit_w := unitW0 mu
  let amount_w := amountW0 ma
  let discount_w := discountW0 showD md
  let rate_w := rateW0 showR mr
  let other_sum := otherSum0 showD showR mq mu ma md mr
  let desc_w := W - other_sum
  if desc_w < desc_min then
    if other_sum ≤ 0 then
      ⟨qty_w, W, unit_w, discount_w, rate_w, amount_w⟩
    else
      let target_other := max (W - desc_min) (W * 0.6)
      let scale := target_other / other_sum
      let qty_w := qty_w * scale
      let unit_w := unit_w * scale
      let amount_w := amount_w * scale
      let discount_w := if showD then discount_w * scale else discount_w
      let rate_w := if showR then rate_w * scale else rate_w
      let other_sum := qty_w + unit_w + amount_w + discount_w + rate_w
      let desc_w := max desc_min (W - other_sum)
      ⟨qty_w, desc_w, unit_w, discount_w, rate_w, amount_w⟩
  else
    ⟨qty_w, desc_w, unit_w, discount_w, rate_w, amount_w⟩

/-- Model of `col_widths` (invoice.py lines 299-304): the plan handed to the table,
one entry per column in header order. -/
def col_widths (W : ℚ) (showD showR : Bool) (mq mu ma md mr : ℚ) : List ℚ :=
  let c := allocFinal W showD showR mq mu ma md mr
  [c.qty_w, c.desc_w, c.unit_w]
    ++ (if showD then [c.discount_w] else [])
    ++ (if showR then [c.rate_w] else [])
    ++ [c.amount_w]

/-- The role minimum for each column, in header order. -/
def minsList (showD showR : Bool) : List ℚ :=
  [qty_min, desc_min, unit_min]
    ++ (if showD then [discount_min] else [])
    ++ (if showR then [rate_min] else [])
    ++ [amount_min]

/-- Maximum measured width of one column across the (bold) header text and
every row cell (invoice.py lines 252-268). -/
def colMax (measure : String → Bool → ℚ) (headerText : String)
    (rows : List (List String)) (idx : ℕ) : ℚ :=
  rows.foldl (fun acc row => max acc (measure (row.getD idx "") false))
    (measure headerText true)

/-- The full allocator on a table (header row then body rows), mirroring
the index layout of invoice.py lines 226-236 and the measurement loop of
lines 252-268. -/
def allocFromTable (measure : String → Bool → ℚ) (W : ℚ) (showD showR : Bool)
    (tableData : List (List String)) : List ℚ :=
  let headers := tableData.headD []
  let rows := tableData.tail
  let amount_idx := 3 + (if showD then 1 else 0) + (if showR then 1 else 0)
  let max_qty := colMax measure (headers.getD 0 "") rows 0
  let max_unit := colMax measure (headers.getD 2 "") rows 2
  let max_amount := colMax measure (headers.getLastD "") rows amount_idx
  let max_discount :=
    if showD then colMax measure (headers.getD 3 "") rows 3 else 0
  let max_rate :=
    if showR then
      let i := 3 + (if showD then 1 else 0)
      colMax measure (headers.getD i "") rows i
    else 0
  col_widths W showD showR max_qty max_unit max_amount max_discount max_rate

/-- A width-measurement function usable as the abstracted
`measure(text, bold)` interface: one unit per character. -/
def lenMeasure (s : String) (_bold : Bool) : ℚ := s.length

/-! ## CroppedImageFitWidth (invoice.py, lines 53-87) -/

/-- The drawing geometry computed by `CroppedImageFitWidth.draw`
(invoice.py lines 69-86): `none` models the early `return` when the native
image width is zero (so the `box_w / iw` division is never reached);
otherwise `(dx, dy, draw_w, draw_h)` are the arguments passed to
`canvas.drawImage`. -/
def CroppedImageFitWidth.draw (iw ih box_w box_h : ℚ) :
    Option (ℚ × ℚ × ℚ × ℚ) :=
  if iw = 0 then none
  else
    let scale := box_w / iw
    let draw_w := box_w
    let draw_h := ih * scale
    let dx : ℚ := 0
    let dy := (box_h - draw_h) / 2
    some (dx, dy, draw_w, draw_h)

/-! ## Frame composite geometry (edge_wrapped.py, lines 140-167) -/

/-- Python `int()` on a float: truncation toward zero. -/
def pyTrunc (q : ℚ) : ℤ :=
  if q < 0 then -((-q).floor) else q.floor

/-- The paste geometry of `create_framed_image` (edge_wrapped.py lines
147-164): returns `(x, y, new_width, new_height)` where `(x, y)` is the
top-left corner at which the resized photo is pasted onto the background. -/
def framePaste (canvas_width canvas_height center_width center_height : ℤ) :
    ℤ × ℤ × ℤ × ℤ :=
  let padding : ℤ := 150
  let available_width : ℚ := (canvas_width : ℚ) - (padding : ℚ) * 2
  let available_height : ℚ := (canvas_height : ℚ) - (padding : ℚ) * 2 - 200
  let scale : ℚ :=
    min (available_width / (center_width : ℚ))
      (available_height / (center_height : ℚ))
  let new_width : ℤ := pyTrunc ((center_width : ℚ) * scale)
  let new_height : ℤ := pyTrunc ((center_height : ℚ) * scale)
  let x : ℤ := (canvas_width - new_width).fdiv 2
  let actual_side_padding := x
  let y : ℤ := actual_side_padding - 5
  (x, y, new_width, new_height)

/-! ## Caption word-wrap (edge_wrapped.py, lines 186-216)

Python strings are modelled as `List Char` in this component so that
`str.split(', ')` and `', '.join` can be reasoned about directly. -/

/-- Python `', '.join(strs)` over char-list strings. -/
def joinSep (sep : List Char) : List (List Char) → List Char
  | [] => []
  | [x] => x
  | x :: y :: ys => x ++ sep ++ joinSep sep (y :: ys)

/-- Python `s.split(', ')` over char-list strings: scan left to right,
breaking at each (non-overlapping) occurrence of `", "`. -/
def splitCommaSpace : List Char → List (List Char)
  | [] => [[]]
  | [c] => [[c]]
  | c1 :: c2 :: rest =>
    if c1 = ',' ∧ c2 = ' ' then [] :: splitCommaSpace rest
    else
      match splitCommaSpace (c2 :: rest) with
      | [] => [[c1]]
      | l :: ls => (c1 :: l) :: ls

/-- The greedy accumulation loop of the subtitle wrap (edge_wrapped.py
lines 203-214): extend the current line with `", "` and the next token
while the measured width stays within `available`, otherwise emit the
current line with a trailing comma and restart from the token. -/
def wrapLoop (measure : List Char → ℚ) (available : ℚ) :
    List Char → List (List Char) → List (List Char)
  | current, [] => [current]
  | current, w :: ws =>
    let test := current ++ [',', ' '] ++ w
    if measure test ≤ available then wrapLoop measure available test ws
    else (current ++ [',']) :: wrapLoop measure available w ws

/-- Model of `subtitle_lines` (edge_wrapped.py lines 190-216): wrap only when the
whole subtitle measures wider than the available width. -/
def subtitleLines (measure : List Char → ℚ) (available : ℚ)
    (subtitle : List Char) : List (List Char) :=
  if available < measure subtitle then
    match splitCommaSpace subtitle with
    | [] => []
    | w :: ws => wrapLoop measure available w ws
  else [subtitle]

/-- The uppercased comma-joined caption (edge_wrapped.py line 188). -/
def subtitleText (popups : List (List Char)) : List Char :=
  (joinSep [',', ' '] popups).map Char.toUpper

/-! ## Invoice page composition (invoice.py, lines 90-341) -/

/-- The flowables appended to `flow` by `generate_invoice_pdf`, abstracted
to the data that distinguishes them. -/
inductive Flowable where
  | bannerImage (box_w box_h : ℚ)
  | spacer (h : ℚ)
  | paragraph (text : String)
  | metaTable
  | invoiceTable (data : List (List String)) (widths : List ℚ)
  deriving DecidableEq

/-- The value `doc.width` for an A4 page with 15mm margins on each side
(invoice.py lines 97-105): 210mm minus 30mm. -/
def docWidth : ℚ := 180 * mmUnit

/-- The header-image block (invoice.py lines 127-143).  Fetching and
decoding the image are external effects; their combined outcome is the
`fetch` argument.  The surrounding `try/except Exception: pass` means any
failure contributes no flowables at all. -/
def headerImageFlow (fetch : String → Except String Unit)
    (header_image : Option String) : List Flowable :=
  match header_image with
  | none => []
  | some src =>
    match fetch src with
    | Except.ok _ => [Flowable.bannerImage docWidth (46 * mmUnit), Flowable.spacer 6]
    | Except.error _ => []

/-- The footer total (invoice.py lines 329-334): `payment.amount` divided
by the rate when `rate > 1`. -/
def totalParagraph (payment : Payment) : String :=
  let total := if 1 < payment.rate then payment.amount / payment.rate else payment.amount
  "<b>Total: " ++ format_currency total payment.currency ++ " "
    ++ payment.currency ++ "</b>"

/-- The full flowable list built by `generate_invoice_pdf` (invoice.py
lines 125-335), with text measurement abstracted as `measure`. -/
def generate_invoice_pdf_flow (measure : String → Bool → ℚ)
    (fetch : String → Except String Unit) (payment : Payment)
    (discount : Option ℚ) (header_image : Option String) : List Flowable :=
  let data := table_data payment discount
  let widths :=
    allocFromTable measure docWidth discount.isSome
      (decide (1 < payment.rate)) data
  headerImageFlow fetch header_image
    ++ [Flowable.paragraph "Invoice", Flowable.spacer 6]
    ++ [Flowable.metaTable, Flowable.spacer 12]
    ++ [Flowable.invoiceTable data widths, Flowable.spacer 12]
    ++ [Flowable.paragraph (totalParagraph payment)]

/-! ## Word-wrap lemmas -/

lemma joinSep_cons_of_ne_nil (sep : List Char) (a : List Char)
    {l : List (List Char)} (h : l ≠ []) :
    joinSep sep (a :: l) = a ++ sep ++ joinSep sep l := by
  cases l with
  | nil => exact absurd rfl h
  | cons y ys => rfl

lemma splitCommaSpace_ne_nil (s : List Char) : splitCommaSpace s ≠ [] := by
  induction s using splitCommaSpace.induct with
  | case1 => simp [splitCommaSpace]
  | case2 c => simp [splitCommaSpace]
  | case3 c1 c2 rest hcond ih => simp [splitCommaSpace, hcond]
  | case4 c1 c2 rest hcond hspl ih => exact absurd hspl ih
  | case5 c1 c2 rest hcond l ls hspl ih => simp [splitCommaSpace, hcond, hspl]

lemma joinSep_splitCommaSpace (s : List Char) :
    joinSep [',', ' '] (splitCommaSpace s) = s := by
  induction s using splitCommaSpace.induct with
  | case1 => rfl
  | case2 c => rfl
  | case3 c1 c2 rest hcond ih =>
    obtain ⟨rfl, rfl⟩ := hcond
    have hsplit : splitCommaSpace (',' :: ' ' :: rest)
        = [] :: splitCommaSpace rest := by
      simp [splitCommaSpace]
    rw [hsplit, joinSep_cons_of_ne_nil _ _ (splitCommaSpace_ne_nil rest), ih]
    rfl
  | case4 c1 c2 rest hcond hspl ih => exact absurd hspl (splitCommaSpace_ne_nil _)
  | case5 c1 c2 rest hcond l ls hspl ih =>
    rw [hspl] at ih
    have hsplit : splitCommaSpace (c1 :: c2 :: rest) = (c1 :: l) :: ls := by
      rw [splitCommaSpace, if_neg hcond, hspl]
    rw [hsplit]
    cases ls with
    | nil => simpa [joinSep] using congrArg (c1 :: ·) ih
    | cons z zs =>
      have hstep : joinSep [',', ' '] ((c1 :: l) :: z :: zs)
          = c1 :: joinSep [',', ' '] (l :: z :: zs) := by
        simp [joinSep]
      rw [hstep, ih]

lemma wrapLoop_ne_nil (measure : List Char → ℚ) (A : ℚ)
    (ws : List (List Char)) (current : List Char) :
    wrapLoop measure A current ws ≠ [] := by
  induction ws generalizing current with
  | nil => simp [wrapLoop]
  | cons w ws ih =>
    rw [wrapLoop]
    split
    · exact ih _
    · simp

lemma wrapLoop_join (measure : List Char → ℚ) (A : ℚ)
    (ws : List (List Char)) (current : List Char) :
    joinSep [' '] (wrapLoop measure A current ws)
      = joinSep [',', ' '] (current :: ws) := by
  induction ws generalizing current with
  | nil => rfl
  | cons w ws ih =>
    rw [wrapLoop]
    split
    · rw [ih]
      cases ws <;> simp [joinSep, List.append_assoc]
    · rw [joinSep_cons_of_ne_nil _ _ (wrapLoop_ne_nil measure A ws w), ih]
      simp [joinSep, List.append_assoc]

/-! ## Claim theorems -/

/-- C1 (counterexample): with currency EUR and rate 0.92 the claimed
five-cell row (with a Rate column and amount 217,39 EUR) is NOT what
`generate_invoice_pdf` builds, because the rate-converted path requires
`rate > 1`. -/
theorem C1_counterexample :
    buildRow none (92/100) "EUR" "Edge Austin"
        ⟨"Pass", 100, 2⟩ ≠
      ["2", "Pass", "100,00 USD", "1 EUR = 0,92 USD", "217,39 EUR"] := by
  decide

/-- C1 (amended): for a payment with currency EUR, rate 0.92, one line
item ("Pass", 100.00 USD, qty 2) and no discount, the built table takes
the non-converted path (`rate > 1` fails), has no Rate column, and the
row for the item is exactly `["2", "Pass", "100,00 USD", "200,00 EUR"]`. -/
theorem C1_amended_row :
    table_data ⟨7, "EUR", 92/100, 200, [⟨"Pass", 100, 2⟩], "Edge Austin"⟩ none
      = [["Quantity", "Description", "Unit Price", "Amount"],
          ["2", "Pass", "100,00 USD", "200,00 EUR"]] := by
  decide

/-- C9: when the native image width is 0, `CroppedImageFitWidth.draw`
returns early and draws nothing, so the `box_w / iw` scale division is
never evaluated on zero. -/
theorem C9_zero_width_draw_none (ih box_w box_h : ℚ) :
    CroppedImageFitWidth.draw 0 ih box_w box_h = none := by
  simp [CroppedImageFitWidth.draw]

/-- C6: for nonzero native width, `draw` draws at width exactly `W`,
height `W / r` where `r = iw / ih` is the native aspect ratio (equal to
`ih * (W / iw)`), horizontal offset 0, and vertical offset
`(H - W / r) / 2`, centering the drawn image in `H`. -/
theorem C6_draw_geometry (W H iw ih : ℚ) (hiw : iw ≠ 0) :
    CroppedImageFitWidth.draw iw ih W H
      = some (0, (H - W / (iw / ih)) / 2, W, W / (iw / ih)) := by
  have key : W / (iw / ih) = ih * (W / iw) := by
    rcases eq_or_ne ih 0 with h | h
    · simp [h]
    · field_simp
      ring
  simp [CroppedImageFitWidth.draw, hiw, key]

/-- C6 witness: a 2:1-aspect native image in a 10 × 4 box is drawn at
10 × 5, vertically centered (offset -1/2). -/
theorem C6_draw_geometry_witness :
    CroppedImageFitWidth.draw 2 1 10 4
      = some (0, (4 - 10 / (2 / 1)) / 2, 10, 10 / (2 / 1)) :=
  C6_draw_geometry 10 4 2 1 (by norm_num)

lemma int_sub_two_fdiv (n : ℤ) :
    n - 2 * n.fdiv 2 = 0 ∨ n - 2 * n.fdiv 2 = 1 := by
  have h := Int.fmod_add_fdiv n 2
  have h2 : n.fmod 2 = n % 2 := Int.fmod_eq_emod n (by norm_num)
  omega

/-- C7 (counterexample): the top offset of the pasted photo does NOT equal
the actual left/right padding: for a 2000×2000 frame and a 100×100 photo
the side padding is 250 but the top offset is 245. -/
theorem C7_counterexample :
    (framePaste 2000 2000 100 100).2.1 ≠ (framePaste 2000 2000 100 100).1 := by
  decide

/-- C7 (amended): `create_framed_image` pastes the scaled photo
horizontally centered (the left padding `x` is the floor of half the
leftover width, so left and right padding differ by at most one pixel),
and the top offset is the actual side padding MINUS 5 pixels, not the
side padding itself. -/
theorem C7_paste_amended (cw ch w h : ℤ) :
    (framePaste cw ch w h).2.1 = (framePaste cw ch w h).1 - 5 ∧
    (cw - (framePaste cw ch w h).2.2.1 - 2 * (framePaste cw ch w h).1 = 0 ∨
      cw - (framePaste cw ch w h).2.2.1 - 2 * (framePaste cw ch w h).1 = 1) := by
  refine ⟨rfl, ?_⟩
  have h1 : (framePaste cw ch w h).1
      = (cw - (framePaste cw ch w h).2.2.1).fdiv 2 := rfl
  rw [h1]
  exact int_sub_two_fdiv _

/-- C5 (counterexample): rejoining the wrapped caption lines with `", "`
does not reproduce the original comma-joined uppercased token sequence:
tokens AB, CD at available width 3 wrap to lines `"AB,"` and `"CD"`,
which rejoin to `"AB,, CD"`. -/
theorem C5_counterexample :
    joinSep [',', ' ']
        (subtitleLines (fun l => (l.length : ℚ)) 3
          (subtitleText [['A', 'B'], ['C', 'D']])) ≠
      subtitleText [['A', 'B'], ['C', 'D']] := by
  decide

/-- C5 (amended): each non-final wrapped line carries the separating comma
itself, so rejoining the produced lines with a single space " " (rather
than ", ") reproduces the original comma-joined uppercased token sequence
exactly, for every measure function, available width, and token list. -/
theorem C5_wrap_rejoin_amended (measure : List Char → ℚ) (A : ℚ)
    (popups : List (List Char)) :
    joinSep [' '] (subtitleLines measure A (subtitleText popups))
      = subtitleText popups := by
  unfold subtitleLines
  split
  · rcases h : splitCommaSpace (subtitleText popups) with _ | ⟨w, ws⟩
    · exact absurd h (splitCommaSpace_ne_nil _)
    · have := joinSep_splitCommaSpace (subtitleText popups)
      rw [h] at this
      rw [wrapLoop_join, this]
  · rfl

/-- C4: the header row contains "Discount" iff a discount percent is
supplied (even 0), "Rate" iff `rate > 1`; with neither option the headers
are exactly the four base ones, each option inserts exactly one extra
header before "Amount", and with both the headers are the six listed ones
in order. -/
theorem C4_headers (discount : Option ℚ) (rate : ℚ) :
    ("Discount" ∈ invoiceHeaders discount rate ↔ discount.isSome = true) ∧
    ("Rate" ∈ invoiceHeaders discount rate ↔ 1 < rate) ∧
    (discount = none → ¬1 < rate →
      invoiceHeaders discount rate
        = ["Quantity", "Description", "Unit Price", "Amount"]) ∧
    (discount.isSome = true → ¬1 < rate →
      invoiceHeaders discount rate
        = ["Quantity", "Description", "Unit Price", "Discount", "Amount"]) ∧
    (discount = none → 1 < rate →
      invoiceHeaders discount rate
        = ["Quantity", "Description", "Unit Price", "Rate", "Amount"]) ∧
    (discount.isSome = true → 1 < rate →
      invoiceHeaders discount rate
        = ["Quantity", "Description", "Unit Price", "Discount", "Rate",
            "Amount"]) := by
  rcases discount with _ | d <;> by_cases h : 1 < rate <;>
    simp [invoiceHeaders, h]

/-- C4 witness: with a discount supplied and rate 2 both optional columns
appear, in the documented order. -/
theorem C4_headers_witness :
    "Rate" ∈ invoiceHeaders (some 10) 2 ∧
    invoiceHeaders (some 10) 2
      = ["Quantity", "Description", "Unit Price", "Discount", "Rate",
          "Amount"] :=
  ⟨(C4_headers (some 10) 2).2.1.mpr (by norm_num),
    (C4_headers (some 10) 2).2.2.2.2.2 rfl (by norm_num)⟩

lemma buildRow_length (discount : Option ℚ) (rate : ℚ) (currency popup : String)
    (item : ProductSnapshot) :
    (buildRow discount rate currency popup item).length
      = (invoiceHeaders discount rate).length := by
  rcases discount with _ | d <;> by_cases h : 1 < rate <;>
    simp [buildRow, invoiceHeaders, h]

/-- C10: every row of the invoice table (the header row and every built
body row) has exactly as many cells as the header row: the optional
Discount and Rate cells are appended to a body row exactly when the
corresponding header is present. -/
theorem C10_row_header_arity (payment : Payment) (discount : Option ℚ)
    (row : List String) (hrow : row ∈ table_data payment discount) :
    row.length = (invoiceHeaders discount payment.rate).length := by
  rcases List.mem_cons.mp hrow with rfl | hmem
  · rfl
  · obtain ⟨item, _, rfl⟩ := List.mem_map.mp hmem
    exact buildRow_length _ _ _ _ _

/-- C10 witness: a concrete body row of a one-item USD payment has the
header arity. -/
theorem C10_row_header_arity_witness :
    (buildRow none (1 : ℚ) "USD" "Austin" ⟨"Pass", 100, 2⟩).length
      = (invoiceHeaders none (1 : ℚ)).length :=
  C10_row_header_arity ⟨1, "USD", 1, 100, [⟨"Pass", 100, 2⟩], "Austin"⟩ none
    _ (by decide)

/-- C8: if fetching/decoding the header image fails, `generate_invoice_pdf`
does not propagate the error: the flowable list is identical to the one
built with no header image at all (banner omitted, everything else still
rendered), and contains no banner flowable. -/
theorem C8_header_soft_fail (measure : String → Bool → ℚ)
    (fetch : String → Except String Unit) (payment : Payment)
    (discount : Option ℚ) (url e : String)
    (h : fetch url = Except.error e) :
    generate_invoice_pdf_flow measure fetch payment discount (some url)
      = generate_invoice_pdf_flow measure fetch payment discount none ∧
    ∀ bw bh, Flowable.bannerImage bw bh ∉
      generate_invoice_pdf_flow measure fetch payment discount (some url) := by
  constructor
  · simp [generate_invoice_pdf_flow, headerImageFlow, h]
  · intro bw bh
    simp [generate_invoice_pdf_flow, headerImageFlow, h]

/-- A fetch outcome that always fails, for the C8 witness. -/
def failFetch : String → Except String Unit :=
  fun _ => Except.error "fetch failed"

/-- A concrete one-item payment used by witnesses. -/
def samplePayment : Payment :=
  ⟨1, "USD", 1, 100, [⟨"Pass", 100, 2⟩], "Austin"⟩

/-- C8 witness: with a concrete failing fetch, the rendered flow equals
the no-header-image flow and has no banner. -/
theorem C8_header_soft_fail_witness :
    generate_invoice_pdf_flow lenMeasure failFetch samplePayment none
        (some "http://images.example/banner.png")
      = generate_invoice_pdf_flow lenMeasure failFetch samplePayment none
          none ∧
    ∀ bw bh, Flowable.bannerImage bw bh ∉
      generate_invoice_pdf_flow lenMeasure failFetch samplePayment none
        (some "http://images.example/banner.png") :=
  C8_header_soft_fail lenMeasure failFetch samplePayment none
    "http://images.example/banner.png" "fetch failed" rfl

/-! ## Allocator lemmas -/

/-- Total width of the six-field allocation. -/
def ColWidths.total (c : ColWidths) : ℚ :=
  c.qty_w + c.desc_w + c.unit_w + c.discount_w + c.rate_w + c.amount_w

lemma desc_min_val : desc_min = 10800 / 127 := by
  norm_num [desc_min, mmUnit]

lemma qty_min_pos : 0 < qty_min := by norm_num [qty_min, mmUnit]

lemma discountW0_nonneg (sD : Bool) (md : ℚ) : 0 ≤ discountW0 sD md := by
  cases sD with
  | false => simp [discountW0]
  | true =>
    refine le_trans ?_ (le_max_left discount_min (md + pad))
    norm_num [discount_min, mmUnit]

lemma rateW0_nonneg (sR : Bool) (mr : ℚ) : 0 ≤ rateW0 sR mr := by
  cases sR with
  | false => simp [rateW0]
  | true =>
    refine le_trans ?_ (le_max_left rate_min (mr + pad))
    norm_num [rate_min, mmUnit]

lemma otherSum0_pos (sD sR : Bool) (mq mu ma md mr : ℚ) :
    0 < otherSum0 sD sR mq mu ma md mr := by
  have h1 : qty_min ≤ qtyW0 mq := le_max_left _ _
  have h2 : unit_min ≤ unitW0 mu := le_max_left _ _
  have h3 : amount_min ≤ amountW0 ma := le_max_left _ _
  have h4 := discountW0_nonneg sD md
  have h5 := rateW0_nonneg sR mr
  have hu : 0 < unit_min := by norm_num [unit_min, mmUnit]
  have ha : 0 < amount_min := by norm_num [amount_min, mmUnit]
  have hq := qty_min_pos
  unfold otherSum0
  linarith

lemma fallback_total (W OS q u a dc r DC R : ℚ) (hOS : 0 < OS)
    (hsum : q + u + a + dc + r = OS)
    (hDC : DC = dc * (max (W - desc_min) (W * 0.6) / OS))
    (hR : R = r * (max (W - desc_min) (W * 0.6) / OS))
    (hW : 27000 / 127 ≤ W) :
    q * (max (W - desc_min) (W * 0.6) / OS)
      + max desc_min (W - (q * (max (W - desc_min) (W * 0.6) / OS)
          + u * (max (W - desc_min) (W * 0.6) / OS)
          + a * (max (W - desc_min) (W * 0.6) / OS) + DC + R))
      + u * (max (W - desc_min) (W * 0.6) / OS) + DC + R
      + a * (max (W - desc_min) (W * 0.6) / OS) = W := by
  subst hDC hR
  have hdm := desc_min_val
  have htarget : max (W - desc_min) (W * 0.6) = W - desc_min :=
    max_eq_left (by rw [hdm]; norm_num; linarith)
  rw [htarget]
  have key : q * ((W - desc_min) / OS) + u * ((W - desc_min) / OS)
      + a * ((W - desc_min) / OS) + dc * ((W - desc_min) / OS)
      + r * ((W - desc_min) / OS) = W - desc_min := by
    calc q * ((W - desc_min) / OS) + u * ((W - desc_min) / OS)
        + a * ((W - desc_min) / OS) + dc * ((W - desc_min) / OS)
        + r * ((W - desc_min) / OS)
        = OS * ((W - desc_min) / OS) := by rw [← hsum]; ring
      _ = W - desc_min := by rw [mul_comm]; exact div_mul_cancel₀ _ hOS.ne'
  rw [key]
  have hself : W - (W - desc_min) = desc_min := by ring
  rw [hself, max_self]
  linarith [key]

lemma allocFinal_total (W : ℚ) (sD sR : Bool) (mq mu ma md mr : ℚ)
    (hW : 27000 / 127 ≤ W) :
    (allocFinal W sD sR mq mu ma md mr).total = W := by
  have hOS := otherSum0_pos sD sR mq mu ma md mr
  rcases lt_or_ge (W - otherSum0 sD sR mq mu ma md mr) desc_min with h1 | h1
  · have h2 : ¬ otherSum0 sD sR mq mu ma md mr ≤ 0 := not_le.2 hOS
    simp only [allocFinal, if_pos h1, if_neg h2, ColWidths.total]
    have hDC : (if sD = true
          then discountW0 sD md * (max (W - desc_min) (W * 0.6)
            / otherSum0 sD sR mq mu ma md mr)
          else discountW0 sD md)
        = discountW0 sD md * (max (W - desc_min) (W * 0.6)
            / otherSum0 sD sR mq mu ma md mr) := by
      cases sD with
      | false => simp [discountW0]
      | true => rfl
    have hR : (if sR = true
          then rateW0 sR mr * (max (W - desc_min) (W * 0.6)
            / otherSum0 sD sR mq mu ma md mr)
          else rateW0 sR mr)
        = rateW0 sR mr * (max (W - desc_min) (W * 0.6)
            / otherSum0 sD sR mq mu ma md mr) := by
      cases sR with
      | false => simp [rateW0]
      | true => rfl
    rw [hDC, hR]
    exact fallback_total W (otherSum0 sD sR mq mu ma md mr) (qtyW0 mq)
      (unitW0 mu) (amountW0 ma) (discountW0 sD md) (rateW0 sR mr) _ _ hOS rfl
      rfl rfl hW
  · have h1' : ¬ (W - otherSum0 sD sR mq mu ma md mr < desc_min) := not_lt.2 h1
    simp only [allocFinal, if_neg h1', ColWidths.total]
    rw [otherSum0]
    ring

lemma allocFinal_discount_w_false (W : ℚ) (sR : Bool) (mq mu ma md mr : ℚ) :
    (allocFinal W false sR mq mu ma md mr).discount_w = 0 := by
  simp only [allocFinal]
  split_ifs <;> simp [discountW0]

lemma allocFinal_rate_w_false (W : ℚ) (sD : Bool) (mq mu ma md mr : ℚ) :
    (allocFinal W sD false mq mu ma md mr).rate_w = 0 := by
  simp only [allocFinal]
  split_ifs <;> simp [rateW0]

lemma col_widths_sum_eq_total (W : ℚ) (sD sR : Bool) (mq mu ma md mr : ℚ) :
    (col_widths W sD sR mq mu ma md mr).sum
      = (allocFinal W sD sR mq mu ma md mr).total := by
  cases sD <;> cases sR <;>
    simp [col_widths, ColWidths.total, allocFinal_discount_w_false,
      allocFinal_rate_w_false] <;> ring

lemma col_widths_length (W : ℚ) (sD sR : Bool) (mq mu ma md mr : ℚ) :
    (col_widths W sD sR mq mu ma md mr).length = (minsList sD sR).length := by
  cases sD <;> cases sR <;> simp [col_widths, minsList]

lemma minsList_sum_lb (sD sR : Bool) :
    (27000 / 127 : ℚ) ≤ (minsList sD sR).sum := by
  cases sD <;> cases sR <;>
    norm_num [minsList, qty_min, desc_min, unit_min, amount_min,
      discount_min, rate_min, mmUnit]

/-- C3: for every measure function, table, flag pair, and usable width `W`
at least the sum of the role minimums of the present columns, the widths
produced by the allocator sum to exactly `W`, and the plan has exactly one
width per column (no column is dropped). -/
theorem C3_widths_sum (measure : String → Bool → ℚ) (W : ℚ) (sD sR : Bool)
    (tableData : List (List String))
    (h : (minsList sD sR).sum ≤ W) :
    (allocFromTable measure W sD sR tableData).sum = W ∧
    (allocFromTable measure W sD sR tableData).length
      = (minsList sD sR).length := by
  have h27 : (27000 / 127 : ℚ) ≤ W := le_trans (minsList_sum_lb sD sR) h
  unfold allocFromTable
  exact ⟨by rw [col_widths_sum_eq_total]; exact allocFinal_total _ _ _ _ _ _ _ _ h27,
    col_widths_length _ _ _ _ _ _ _ _⟩

/-- C3 witness: a header-only four-column table at width 300 gets four
widths summing to exactly 300. -/
theorem C3_widths_sum_witness :
    (allocFromTable lenMeasure 300 false false
        [["Quantity", "Description", "Unit Price", "Amount"]]).sum = 300 ∧
    (allocFromTable lenMeasure 300 false false
        [["Quantity", "Description", "Unit Price", "Amount"]]).length
      = (minsList false false).length :=
  C3_widths_sum lenMeasure 300 false false
    [["Quantity", "Description", "Unit Price", "Amount"]] (by decide)

set_option maxRecDepth 4000 in
/-- C2 (counterexample): the role minimums are NOT guaranteed whenever
they sum to at most `W`.  At width 300 (minimums sum to 33840/127 ≈ 266.5)
a table whose quantity cell is 200 characters wide under a one-unit-per-
character measure triggers the proportional fallback, which scales the
unit-price column to 7862400/192151 ≈ 40.9, below its minimum
8640/127 ≈ 68. -/
theorem C2_counterexample :
    (minsList false false).sum ≤ 300 ∧
    ¬ List.Forall₂ (· ≤ ·) (minsList false false)
        (allocFromTable lenMeasure 300 false false
          [["Quantity", "Description", "Unit Price", "Amount"],
            [String.mk (List.replicate 200 '9'), "D", "U", "A"]]) := by
  constructor
  · decide
  · intro hf
    have hw : allocFromTable lenMeasure 300 false false
        [["Quantity", "Description", "Unit Price", "Amount"],
          [String.mk (List.replicate 200 '9'), "D", "U", "A"]]
        = [191100 / 1513, 10800 / 127, 7862400 / 192151, 9172800 / 192151] := by
      decide
    have hm : minsList false false
        = [4320 / 127, 10800 / 127, 8640 / 127, 10080 / 127] := by decide
    rw [hw, hm] at hf
    simp only [List.forall₂_cons] at hf
    have h3 := hf.2.2.1
    norm_num at h3

/-- C2 (amended): whenever the initial residual description width
`W - other_sum` is at least `desc_min` (so the proportional fallback does
not trigger), every column width is at least its role minimum.  When the
fallback does trigger, the scaled non-description columns can drop below
their role minimums even though the minimums sum to less than `W`
(see the counterexample). -/
theorem C2_min_widths_amended (W : ℚ) (sD sR : Bool) (mq mu ma md mr : ℚ)
    (h : desc_min ≤ W - otherSum0 sD sR mq mu ma md mr) :
    List.Forall₂ (· ≤ ·) (minsList sD sR)
      (col_widths W sD sR mq mu ma md mr) := by
  have hnot : ¬ (W - otherSum0 sD sR mq mu ma md mr < desc_min) := not_lt.2 h
  have hq : qty_min ≤ qtyW0 mq := le_max_left _ _
  have hu : unit_min ≤ unitW0 mu := le_max_left _ _
  have ha : amount_min ≤ amountW0 ma := le_max_left _ _
  cases sD <;> cases sR <;>
    simp only [col_widths, allocFinal, if_neg hnot, minsList] <;>
    simp [discountW0, rateW0, List.forall₂_cons, hq, h, hu, ha, le_sup_left]

/-- C2 witness: with no content (all maxima 0) and width 600 the residual
description width is comfortable and every width meets its minimum. -/
theorem C2_min_widths_witness :
    List.Forall₂ (· ≤ ·) (minsList false false)
      (col_widths 600 false false 0 0 0 0 0) :=
  C2_min_widths_amended 600 false false 0 0 0 0 0 (by decide)

end EdgeOS
